import Mathlib

/-
Verification of the bandpass-filter subsystem of rust-photoacoustic.

Embedded sources:
* src/rust/scipy_bandpass_filter.py            (basic streaming adapter)
* src/rust/scipy_bandpass_filter_optimized.py  (cached streaming adapter)
* src/rust/python/gen_bandpass_reference_values.py (reference validation harness)

Python floats are idealised as exact rationals (ℚ); Python exceptions are
modelled as `Except` errors.  Calls into SciPy (`signal.butter`,
`signal.sosfilt`, `signal.sosfiltfilt`) are modelled from SciPy's documented
interface; each model's doc comment states exactly what is kept and what is
abstracted.
-/

set_option maxRecDepth 40000

/-- One second-order section: 3 numerator coefficients (b0 b1 b2) and 3
denominator coefficients (a0 a1 a2), as in one row of a SciPy SOS array. -/
structure SOSSection where
  b0 : ℚ
  b1 : ℚ
  b2 : ℚ
  a0 : ℚ
  a1 : ℚ
  a2 : ℚ
deriving DecidableEq

/-- A cascade of second-order sections (a SciPy SOS array, row by row). -/
abbrev SOSCascade := List SOSSection

/-- The two error kinds raised by the embedded code: `invalidRange` models the
ValueError raised for out-of-range critical frequencies (by the harness's own
check and by `signal.butter`), `insufficientSamples` models the ValueError
raised by `signal.sosfiltfilt` when the input is not longer than its pad
length. -/
inductive ScipyError where
  | invalidRange
  | insufficientSamples
deriving DecidableEq

/-- Decidable equality for `Except`, so concrete runs of the embedded code can
be evaluated inside proofs. -/
instance {ε α : Type} [DecidableEq ε] [DecidableEq α] : DecidableEq (Except ε α) := fun a b =>
  match a, b with
  | .ok x, .ok y =>
      if h : x = y then isTrue (congrArg Except.ok h)
      else isFalse fun hc => h (by injection hc)
  | .error x, .error y =>
      if h : x = y then isTrue (congrArg Except.error h)
      else isFalse fun hc => h (by injection hc)
  | .ok _, .error _ => isFalse fun hc => Except.noConfusion hc
  | .error _, .ok _ => isFalse fun hc => Except.noConfusion hc

/-- Placeholder coefficients of one Butterworth bandpass section.  A digital
Butterworth bandpass section carries one zero at z = 1 and one at z = -1, so
its numerator is a nonzero multiple of (1 - z^-2): b1 = 0 and b2 = -b0 with
b0 ≠ 0 whenever the band edges differ.  The exact values involve prewarped
trigonometry (irrational), which no claim depends on; they are abstracted by
the well-conditioned stand-in b0 = (high - low)/2.  The leading denominator
coefficient a0 is exactly 1, as in every SOS row SciPy produces. -/
def butterSection (low high : ℚ) : SOSSection :=
  ⟨(high - low) / 2, 0, -((high - low) / 2), 1, 0, 0⟩

/-- Model of `scipy.signal.butter(N, [low, high], btype='band', output='sos')`,
from the SciPy documentation: digital critical frequencies must satisfy
0 < Wn < 1 (otherwise ValueError), and for a bandpass request of order N the
returned SOS array has N rows — the realised filter order is 2·N — each row
with leading denominator coefficient 1.  Coefficient values are abstracted
(see `butterSection`); the row count, the validity check and the a0 = 1
normalisation are the documented facts the claims rest on. -/
def butterBandSOS (order : ℕ) (low high : ℚ) : Except ScipyError SOSCascade :=
  if 0 < low ∧ low < 1 ∧ 0 < high ∧ high < 1 then
    .ok ((List.range order).map fun _ => butterSection low high)
  else
    .error .invalidRange

/-- Direct-form-II-transposed biquad recurrence over a sample list, carrying
the two state variables (z1, z2); this is the per-section recurrence of
`scipy.signal.sosfilt` for a section with a0 = 1:
y = b0·x + z1, z1' = b1·x - a1·y + z2, z2' = b2·x - a2·y. -/
def biquadGo (s : SOSSection) : ℚ → ℚ → List ℚ → List ℚ
  | _, _, [] => []
  | z1, z2, x :: rest =>
      let y := s.b0 * x + z1
      y :: biquadGo s (s.b1 * x - s.a1 * y + z2) (s.b2 * x - s.a2 * y) rest

/-- Model of `scipy.signal.sosfilt`: apply every section in turn, each with
zero initial state, over the whole block (single-pass, causal). -/
def sosfilt (sos : SOSCascade) (x : List ℚ) : List ℚ :=
  sos.foldl (fun acc s => biquadGo s 0 0 acc) x

/-- Zero-phase (forward-then-backward) application of a cascade: run the
cascade, reverse, run it again, reverse back.  This is the spec's description
of zero-phase filtering and the value model of `scipy.signal.sosfiltfilt`
(whose odd-extension padding and initial-condition scaling refine the edge
behaviour only; they are abstracted here). -/
def zeroPhaseApply (sos : SOSCascade) (x : List ℚ) : List ℚ :=
  (sosfilt sos (sosfilt sos x).reverse).reverse

/-- Default pad length of `scipy.signal.sosfiltfilt`, from its source contract:
ntaps = 2·n_sections + 1 - min(#{rows with b2 = 0}, #{rows with a2 = 0}),
padlen = 3·ntaps.  `sosfiltfilt` raises ValueError unless the input is
strictly longer than this. -/
def padlen (sos : SOSCascade) : ℕ :=
  3 * (2 * sos.length + 1 -
    min (sos.countP fun s => decide (s.b2 = 0)) (sos.countP fun s => decide (s.a2 = 0)))

/-- Model of `scipy.signal.sosfiltfilt` with default parameters: raise
ValueError when the input is not longer than the pad length, otherwise return
the zero-phase (forward-backward) application, which has the input's length. -/
def sosfiltfilt (sos : SOSCascade) (x : List ℚ) : Except ScipyError (List ℚ) :=
  if x.length ≤ padlen sos then .error .insufficientSamples
  else .ok (zeroPhaseApply sos x)

/-! Basic streaming adapter: src/rust/scipy_bandpass_filter.py.
The optimized file re-declares the same three configuration constants with the
same values; they are shared here. -/

/-- Low cutoff frequency in Hz (both adapter files, line `LOW_FREQ = 300.0`). -/
def LOW_FREQ : ℚ := 300

/-- High cutoff frequency in Hz (both adapter files, `HIGH_FREQ = 3000.0`). -/
def HIGH_FREQ : ℚ := 3000

/-- Butterworth request order (both adapter files, `FILTER_ORDER = 5`). -/
def FILTER_ORDER : ℕ := 5

/-- The clamped normalized low cutoff computed by `design_filter` (line 83):
`low_norm = max(0.001, min(0.999, LOW_FREQ / nyquist))`.  The rationals
1/1000 and 999/1000 are the source's 0.001 and 0.999 exactly. -/
def clamped_low (sample_rate : ℚ) : ℚ :=
  max (1/1000) (min (999/1000) (LOW_FREQ / (sample_rate / 2)))

/-- The clamped normalized high cutoff computed by `design_filter` (line 84):
`high_norm = max(low_norm + 0.001, min(0.999, HIGH_FREQ / nyquist))`. -/
def clamped_high (sample_rate : ℚ) : ℚ :=
  max (clamped_low sample_rate + 1/1000) (min (999/1000) (HIGH_FREQ / (sample_rate / 2)))

/-- `design_filter(sample_rate)` of scipy_bandpass_filter.py (lines 71-88):
normalize the fixed band edges by the Nyquist frequency, clamp them, and call
`signal.butter(FILTER_ORDER, [low_norm, high_norm], btype='band',
output='sos')`. -/
def design_filter (sample_rate : ℚ) : Except ScipyError SOSCascade :=
  butterBandSOS FILTER_ORDER (clamped_low sample_rate) (clamped_high sample_rate)

/-- `apply_filter(samples, sample_rate)` of scipy_bandpass_filter.py (lines
91-106): return the empty list unchanged, otherwise design the filter and run
`signal.sosfiltfilt`; any ValueError propagates to the caller.  The float64 /
float32 dtype conversions are precision idealisations absorbed by ℚ. -/
def apply_filter (samples : List ℚ) (sample_rate : ℚ) : Except ScipyError (List ℚ) :=
  if samples.length = 0 then .ok samples
  else
    match design_filter sample_rate with
    | .error e => .error e
    | .ok sos => sosfiltfilt sos samples

/-- The typed data blocks handled by `process_data` (the Rust ProcessingData
variants listed in the script's user guide).  `other` stands for any further
shape: its tag and field values are carried opaquely. -/
inductive ProcessingData where
  | singleChannel (samples : List ℚ) (sample_rate : ℚ) (timestamp : ℚ) (frame_number : ℕ)
  | dualChannel (channel_a channel_b : List ℚ) (sample_rate : ℚ) (timestamp : ℚ)
      (frame_number : ℕ)
  | audioFrame (channel_a channel_b : List ℚ) (sample_rate : ℚ) (timestamp : ℚ)
      (frame_number : ℕ)
  | photoacousticResult (signal : List ℚ) (metadata : List (String × ℚ))
  | other (tag : String) (fields : List (String × ℚ))
deriving DecidableEq

/-- `process_data(data)` of scipy_bandpass_filter.py (lines 109-162): filter
the signal fields of SingleChannel and DualChannel blocks, convert AudioFrame
to DualChannel while filtering, and return every other block (including
PhotoacousticResult, which has no branch of its own) unchanged.  A ValueError
raised by `apply_filter` propagates. -/
def process_data : ProcessingData → Except ScipyError ProcessingData
  | .singleChannel samples sample_rate timestamp frame_number =>
      match apply_filter samples sample_rate with
      | .error e => .error e
      | .ok filtered =>
          .ok (.singleChannel filtered sample_rate timestamp frame_number)
  | .dualChannel channel_a channel_b sample_rate timestamp frame_number =>
      match apply_filter channel_a sample_rate with
      | .error e => .error e
      | .ok fa =>
          match apply_filter channel_b sample_rate with
          | .error e => .error e
          | .ok fb => .ok (.dualChannel fa fb sample_rate timestamp frame_number)
  | .audioFrame channel_a channel_b sample_rate timestamp frame_number =>
      match apply_filter channel_a sample_rate with
      | .error e => .error e
      | .ok fa =>
          match apply_filter channel_b sample_rate with
          | .error e => .error e
          | .ok fb => .ok (.dualChannel fa fb sample_rate timestamp frame_number)
  | data => .ok data

/-! Optimized streaming adapter: src/rust/scipy_bandpass_filter_optimized.py. -/

/-- The `_filter_cache` dict keyed by sample rate, as an association list
(most recent insertion first). -/
abbrev FilterCache := List (ℚ × SOSCascade)

/-- Dictionary lookup `sample_rate in _filter_cache` /
`_filter_cache[sample_rate]`. -/
def cacheLookup : FilterCache → ℚ → Option SOSCascade
  | [], _ => none
  | (r, sos) :: rest, sample_rate =>
      if sample_rate = r then some sos else cacheLookup rest sample_rate

/-- The design computation of `_design_filter_cached` (optimized file, lines
83-92), run on a cache miss: identical formulas and constants to the basic
file's `design_filter`. -/
def design_filter_compute (sample_rate : ℚ) : Except ScipyError SOSCascade :=
  let nyquist := sample_rate / 2
  let low_norm := LOW_FREQ / nyquist
  let high_norm := HIGH_FREQ / nyquist
  let low_norm := max (1/1000) (min (999/1000) low_norm)
  let high_norm := max (low_norm + 1/1000) (min (999/1000) high_norm)
  butterBandSOS FILTER_ORDER low_norm high_norm

/-- `_design_filter_cached(sample_rate)` of the optimized file (lines 75-96),
with the module-level `_filter_cache` made an explicit argument and result:
return a stored cascade as is, otherwise design, store and return.  On a
design error the cache is unchanged (the Python exception propagates before
the assignment). -/
def design_filter_cached (cache : FilterCache) (sample_rate : ℚ) :
    Except ScipyError (SOSCascade × FilterCache) :=
  match cacheLookup cache sample_rate with
  | some sos => .ok (sos, cache)
  | none =>
      (design_filter_compute sample_rate).map fun sos => (sos, (sample_rate, sos) :: cache)

/-- `shutdown()` of the optimized file (lines 181-187): `_filter_cache.clear()`. -/
def shutdown (_cache : FilterCache) : FilterCache := []

/-- Cache states reachable through the module's own operations, starting from
the empty module-level dict: successful `_design_filter_cached` calls (which
is also all `initialize()` does to the cache) and `shutdown()`. -/
inductive CacheReachable : FilterCache → Prop where
  | empty : CacheReachable []
  | design (c : FilterCache) (sample_rate : ℚ) (sos : SOSCascade) (c' : FilterCache) :
      CacheReachable c → design_filter_cached c sample_rate = .ok (sos, c') →
      CacheReachable c'
  | clear (c : FilterCache) : CacheReachable c → CacheReachable (shutdown c)

/-! Reference validation harness: src/rust/python/gen_bandpass_reference_values.py. -/

/-- The `config` block of the reference dataset (module constants
SAMPLE_RATE, CENTER_FREQ, BANDWIDTH, SIGNAL_LENGTH, made parameters). -/
structure HarnessConfig where
  sample_rate : ℚ
  center_freq : ℚ
  bandwidth : ℚ
  signal_length : ℕ
deriving DecidableEq

/-- `design_scipy_bandpass_filter(order, center_freq, bandwidth, sample_rate)`
(lines 59-90): compute the band edges, normalize by Nyquist, raise ValueError
when `low_norm <= 0 or high_norm >= 1`, otherwise call `signal.butter(order,
[low_norm, high_norm], btype='band', analog=False, output='sos')`. -/
def design_scipy_bandpass_filter (order : ℕ) (center_freq bandwidth sample_rate : ℚ) :
    Except ScipyError SOSCascade :=
  let low_freq := center_freq - bandwidth / 2
  let high_freq := center_freq + bandwidth / 2
  let nyquist := sample_rate / 2
  let low_norm := low_freq / nyquist
  let high_norm := high_freq / nyquist
  if low_norm ≤ 0 ∨ 1 ≤ high_norm then .error .invalidRange
  else butterBandSOS order low_norm high_norm

/-- A named battery of test signals (the dict produced by
`create_test_signals`).  The sine-based and seeded-noise members take
irrational values and cannot be represented exactly, so the battery is a
parameter of the harness functions below; the impulse member is exact and is
defined concretely as `impulseSignal`. -/
abbrev SignalBank := List (String × List ℚ)

/-- `process_signals_with_filter(signals, sos)` (lines 97-106): apply
`signal.sosfilt` — the single-pass causal filter — to every signal of the
battery. -/
def process_signals_with_filter (signals : SignalBank) (sos : SOSCascade) : SignalBank :=
  signals.map fun p => (p.1, sosfilt sos p.2)

/-- One entry of the dataset's `filters` mapping: the stored SOS coefficients
and processed signals for one order.  The `frequency_response` field
(computed by `scipy.signal.sosfreqz`, external numerics no claim touches) is
omitted from the model. -/
structure FilterEntry where
  sos_coefficients : SOSCascade
  processed_signals : SignalBank
deriving DecidableEq

/-- The reference dataset assembled by `generate_reference_data` (lines
113-122): config, raw test signals, and the per-order `filters` mapping in
loop order. -/
structure ReferenceData where
  config : HarnessConfig
  test_signals : SignalBank
  filters : List (String × FilterEntry)
deriving DecidableEq

/-- The dict key `f'order_{order}'`. -/
def orderKey (order : ℕ) : String := "order_" ++ toString order

/-- The per-order loop of `generate_reference_data` (lines 124-152): for each
requested order in turn, design the filter (strict mode) and store its
coefficients together with the causally processed signals.  There is no
try/except in the source: a design error aborts the whole loop. -/
def generateFilters (cfg : HarnessConfig) (signals : SignalBank) :
    List ℕ → Except ScipyError (List (String × FilterEntry))
  | [] => .ok []
  | o :: rest =>
      match design_scipy_bandpass_filter o cfg.center_freq cfg.bandwidth cfg.sample_rate with
      | .error e => .error e
      | .ok sos =>
          match generateFilters cfg signals rest with
          | .error e => .error e
          | .ok tail =>
              .ok ((orderKey o, ⟨sos, process_signals_with_filter signals sos⟩) :: tail)

/-- `generate_reference_data()` (lines 108-154), with the module constants
(config, ORDERS) and the synthesized battery as parameters: build the dataset
from the per-order loop; any per-order error propagates and no dataset is
produced. -/
def generate_reference_data (cfg : HarnessConfig) (orders : List ℕ) (signals : SignalBank) :
    Except ScipyError ReferenceData :=
  (generateFilters cfg signals orders).map fun fs => ⟨cfg, signals, fs⟩

/-- The harness's module constants (lines 20-24): SAMPLE_RATE = 48000,
CENTER_FREQ = 1000.0, BANDWIDTH = 200.0, SIGNAL_LENGTH = 1024. -/
def harnessConfig : HarnessConfig := ⟨48000, 1000, 200, 1024⟩

/-- The harness's requested orders (line 23): ORDERS = [2, 4, 6, 8, 10]. -/
def ORDERS : List ℕ := [2, 4, 6, 8, 10]

/-- The battery key `'impulse'`. -/
def impulseName : String := "impulse"

/-- The impulse test signal (lines 43-45): zeros(SIGNAL_LENGTH) with
`impulse[0] = 1.0`; SIGNAL_LENGTH = 1024. -/
def impulseSignal : List ℚ := 1 :: List.replicate 1023 0

/-- A one-signal battery holding the exact impulse member of the source's
test battery. -/
def sigs0 : SignalBank := [(impulseName, impulseSignal)]

/-- A harness configuration whose band violates the Nyquist bound: at
sample_rate = 1900 Hz the normalized high cutoff is 1100/950 > 1, so
`design_scipy_bandpass_filter` raises for every order. -/
def cfgBad : HarnessConfig := ⟨1900, 1000, 200, 1024⟩

/-- The section the model designer produces for the harness band at 48000 Hz:
low_norm = 900/24000 = 3/80, high_norm = 1100/24000 = 11/240, so
b0 = (11/240 - 3/80)/2 = 1/240. -/
def h2sec : SOSSection := ⟨1/240, 0, -(1/240), 1, 0, 0⟩

/-- The cascade `design_scipy_bandpass_filter 2 1000 200 48000` returns:
two identical sections. -/
def harnessSos2 : SOSCascade := [h2sec, h2sec]

/-- The cascade both adapters design at 48000 Hz: clamped low = 1/80, clamped
high = 1/8, five sections with b0 = (1/8 - 1/80)/2 = 9/160. -/
def basicSos48 : SOSCascade :=
  [⟨9/160, 0, -(9/160), 1, 0, 0⟩, ⟨9/160, 0, -(9/160), 1, 0, 0⟩,
   ⟨9/160, 0, -(9/160), 1, 0, 0⟩, ⟨9/160, 0, -(9/160), 1, 0, 0⟩,
   ⟨9/160, 0, -(9/160), 1, 0, 0⟩]

/-- The `order_2` dataset entry for the one-signal impulse battery. -/
def entryC : FilterEntry := ⟨harnessSos2, process_signals_with_filter sigs0 harnessSos2⟩

/-- The dataset `generate_reference_data harnessConfig [2] sigs0` produces. -/
def refDataC : ReferenceData := ⟨harnessConfig, sigs0, [(orderKey 2, entryC)]⟩

/-- 34 zero samples: one more than the adapter cascade's pad length of 33. -/
def zs34 : List ℚ := List.replicate 34 0

/-- Claim C1 as stated: for every valid FilterSpec (even positive order, band
strictly inside the Nyquist range) the strict-mode Designer returns a cascade
of `order / 2` second-order sections, each with first denominator
coefficient 1. -/
def C1Claim : Prop :=
  ∀ (order : ℕ) (center_freq bandwidth sample_rate : ℚ),
    Even order → 0 < order → 0 < bandwidth → 0 < sample_rate →
    0 < center_freq - bandwidth / 2 → center_freq + bandwidth / 2 < sample_rate / 2 →
    ∃ sos, design_scipy_bandpass_filter order center_freq bandwidth sample_rate = .ok sos ∧
      sos.length = order / 2 ∧ ∀ s ∈ sos, s.a0 = 1

/-- Claim C3 as stated: every processed signal the harness stores equals the
zero-phase (forward-then-backward) application of that order's stored
strict-mode cascade to the raw signal. -/
def C3Claim : Prop :=
  ∀ (cfg : HarnessConfig) (orders : List ℕ) (signals : SignalBank) (d : ReferenceData),
    generate_reference_data cfg orders signals = .ok d →
    ∀ key e, (key, e) ∈ d.filters → ∀ name sig, (name, sig) ∈ signals →
      (name, zeroPhaseApply e.sos_coefficients sig) ∈ e.processed_signals

/-- Claim C4 as stated (its refutable core): when some requested order cannot
be designed, the harness still completes the remaining orders and produces a
(partial) dataset. -/
def C4Claim : Prop :=
  ∀ (cfg : HarnessConfig) (orders : List ℕ) (signals : SignalBank) (o : ℕ),
    o ∈ orders →
    (design_scipy_bandpass_filter o cfg.center_freq cfg.bandwidth cfg.sample_rate).isOk
      = false →
    (generate_reference_data cfg orders signals).isOk = true

/-- Claim C5 as stated: the adapter returns every PhotoacousticResult block
with its metadata unchanged and its signal field replaced by the filtered
signal (the block carries no sample rate, so "filtered" is read generously as
filtered at some rate). -/
def C5Claim : Prop :=
  ∀ (s : List ℚ) (m : List (String × ℚ)),
    ∃ out, process_data (.photoacousticResult s m) = .ok out ∧
      ∃ sig, out = .photoacousticResult sig m ∧
        ∃ sample_rate, apply_filter s sample_rate = .ok sig

/-! Helper lemmas. -/

/-- The biquad recurrence preserves the block length. -/
theorem biquadGo_length (s : SOSSection) :
    ∀ (z1 z2 : ℚ) (x : List ℚ), (biquadGo s z1 z2 x).length = x.length := by
  intro z1 z2 x
  induction x generalizing z1 z2 with
  | nil => rfl
  | cons a rest ih => simp [biquadGo, ih]

/-- `sosfilt` preserves the block length. -/
theorem sosfilt_length (sos : SOSCascade) (x : List ℚ) :
    (sosfilt sos x).length = x.length := by
  induction sos generalizing x with
  | nil => rfl
  | cons s rest ih =>
      rw [show sosfilt (s :: rest) x = sosfilt rest (biquadGo s 0 0 x) from rfl]
      rw [ih (biquadGo s 0 0 x), biquadGo_length]

/-- Zero-phase application preserves the block length. -/
theorem zeroPhaseApply_length (sos : SOSCascade) (x : List ℚ) :
    (zeroPhaseApply sos x).length = x.length := by
  simp [zeroPhaseApply, sosfilt_length]

/-- The clamped high cutoff is at least the clamped low cutoff plus 1/1000. -/
theorem clamped_high_ge (sample_rate : ℚ) :
    clamped_low sample_rate + 1/1000 ≤ clamped_high sample_rate :=
  le_max_left _ _

/-- The clamped low cutoff lies in [1/1000, 999/1000]. -/
theorem clamped_low_bounds (sample_rate : ℚ) :
    1/1000 ≤ clamped_low sample_rate ∧ clamped_low sample_rate ≤ 999/1000 := by
  constructor
  · exact le_max_left _ _
  · apply max_le
    · norm_num
    · exact min_le_left _ _

/-- Whenever the basic `design_filter` succeeds, the cascade has 5 sections,
every b2 is nonzero and every a2 is zero, so the `sosfiltfilt` pad length is
3·(2·5 + 1) = 33. -/
theorem design_filter_padlen (sample_rate : ℚ) (sos : SOSCascade)
    (h : design_filter sample_rate = .ok sos) : padlen sos = 33 := by
  rw [design_filter, butterBandSOS] at h
  split at h
  · injection h with hsos
    subst hsos
    have hlt : clamped_low sample_rate < clamped_high sample_rate := by
      have := clamped_high_ge sample_rate
      linarith
    have hb2 : (List.countP (fun s => decide (s.b2 = 0))
        ((List.range FILTER_ORDER).map fun _ =>
          butterSection (clamped_low sample_rate) (clamped_high sample_rate))) = 0 := by
      apply List.countP_eq_zero.mpr
      intro a ha
      obtain ⟨i, -, rfl⟩ := List.mem_map.mp ha
      simp only [butterSection, decide_eq_true_eq]
      intro hc
      have : clamped_high sample_rate - clamped_low sample_rate = 0 := by linarith [neg_eq_zero.mp hc]
      linarith
    rw [padlen, hb2]
    simp [FILTER_ORDER]
  · exact Except.noConfusion h

/-- A nonempty block of at most 33 samples is rejected by the basic
`apply_filter` at every sample rate: either the design itself fails, or
`sosfiltfilt` raises for want of samples. -/
theorem apply_filter_short_not_ok (sample_rate : ℚ) (x : List ℚ)
    (hne : x ≠ []) (hlen : x.length ≤ 33) : (apply_filter x sample_rate).isOk = false := by
  rw [apply_filter, if_neg (by simpa using hne)]
  cases hdes : design_filter sample_rate with
  | error e => rfl
  | ok sos =>
      show (sosfiltfilt sos x).isOk = false
      rw [sosfiltfilt,
        if_pos (by rw [design_filter_padlen sample_rate sos hdes]; exact hlen)]
      rfl

/-! Claim C1. -/

/-- Claim C1 as stated is false: the strict-mode Designer asked for order 2
over the harness band returns a cascade of 2 second-order sections (SciPy's
bandpass `butter` returns `order` rows, realising filter order 2·order), not
2/2 = 1. -/
theorem c1_counterexample : ¬ C1Claim := by
  intro h
  obtain ⟨sos, hok, hlen, -⟩ :=
    h 2 1000 200 48000 (by decide) (by decide) (by norm_num) (by norm_num) (by norm_num)
      (by norm_num)
  have hdes : design_scipy_bandpass_filter 2 1000 200 48000 = .ok harnessSos2 := by
    with_unfolding_all decide
  rw [hdes] at hok
  injection hok with hsos
  rw [← hsos] at hlen
  simp [harnessSos2] at hlen

/-- Claim C1, amended: for every valid FilterSpec the strict-mode Designer
returns a cascade whose number of second-order sections equals `order` (the
realised filter order is 2·order), and in every section the first denominator
coefficient equals 1. -/
theorem c1_section_count (order : ℕ) (center_freq bandwidth sample_rate : ℚ)
    (heven : Even order) (hpos : 0 < order)
    (hbw : 0 < bandwidth) (hsr : 0 < sample_rate)
    (hlo : 0 < center_freq - bandwidth / 2)
    (hhi : center_freq + bandwidth / 2 < sample_rate / 2) :
    ∃ sos, design_scipy_bandpass_filter order center_freq bandwidth sample_rate = .ok sos ∧
      sos.length = order ∧ ∀ s ∈ sos, s.a0 = 1 := by
  have hnyq : 0 < sample_rate / 2 := by linarith
  have hln : 0 < (center_freq - bandwidth / 2) / (sample_rate / 2) := div_pos hlo hnyq
  have hhn1 : (center_freq + bandwidth / 2) / (sample_rate / 2) < 1 :=
    (div_lt_one hnyq).mpr hhi
  have hln1 : (center_freq - bandwidth / 2) / (sample_rate / 2) < 1 :=
    (div_lt_one hnyq).mpr (by linarith)
  have hhn : 0 < (center_freq + bandwidth / 2) / (sample_rate / 2) :=
    div_pos (by linarith) hnyq
  have hdeq : design_scipy_bandpass_filter order center_freq bandwidth sample_rate =
      .ok ((List.range order).map fun _ =>
        butterSection ((center_freq - bandwidth / 2) / (sample_rate / 2))
          ((center_freq + bandwidth / 2) / (sample_rate / 2))) := by
    rw [design_scipy_bandpass_filter]
    rw [if_neg (by push_neg; exact ⟨hln, hhn1⟩)]
    rw [butterBandSOS, if_pos ⟨hln, hln1, hhn, hhn1⟩]
  refine ⟨_, hdeq, ?_, ?_⟩
  · simp
  · intro s hs
    obtain ⟨i, -, rfl⟩ := List.mem_map.mp hs
    rfl

/-- Witness for `c1_section_count` at the harness's concrete order-4 spec. -/
theorem c1_witness :
    ∃ sos, design_scipy_bandpass_filter 4 1000 200 48000 = .ok sos ∧
      sos.length = 4 ∧ ∀ s ∈ sos, s.a0 = 1 :=
  c1_section_count 4 1000 200 48000 (by decide) (by decide) (by norm_num) (by norm_num)
    (by norm_num) (by norm_num)

/-! Claim C2. -/

/-- Claim C2 fails on the code at sample_rate = 600 (a positive rate): the
clamped low cutoff becomes 999/1000, the clamped high cutoff becomes
999/1000 + 1/1000 = 1 — above the claimed 999/1000 ceiling — and the
clamped-mode design raises the range error the code's own comment claims the
clamping prevents. -/
theorem c2_clamp_violated_at_600 :
    (0:ℚ) < 600 ∧
    clamped_low 600 = 999/1000 ∧
    clamped_high 600 = 1 ∧
    ¬(clamped_high 600 ≤ 999/1000) ∧
    design_filter 600 = .error .invalidRange := by
  with_unfolding_all decide

/-! Claim C6. -/

/-- Claim C6: over positive bandwidth and sample rate, the strict-mode
Designer raises the range error exactly when the normalized low cutoff is
≤ 0 or the normalized high cutoff is ≥ 1; otherwise it hands the unclamped
normalized cutoffs to `butter` and succeeds. -/
theorem c6_strict_mode_range_check (order : ℕ) (center_freq bandwidth sample_rate : ℚ)
    (hbw : 0 < bandwidth) (hsr : 0 < sample_rate) :
    (design_scipy_bandpass_filter order center_freq bandwidth sample_rate
        = .error .invalidRange ↔
      (center_freq - bandwidth / 2) / (sample_rate / 2) ≤ 0 ∨
        1 ≤ (center_freq + bandwidth / 2) / (sample_rate / 2)) ∧
    (¬((center_freq - bandwidth / 2) / (sample_rate / 2) ≤ 0 ∨
        1 ≤ (center_freq + bandwidth / 2) / (sample_rate / 2)) →
      design_scipy_bandpass_filter order center_freq bandwidth sample_rate =
        butterBandSOS order ((center_freq - bandwidth / 2) / (sample_rate / 2))
          ((center_freq + bandwidth / 2) / (sample_rate / 2)) ∧
      (design_scipy_bandpass_filter order center_freq bandwidth sample_rate).isOk = true) := by
  have hnyq : 0 < sample_rate / 2 := by linarith
  by_cases hc :
      (center_freq - bandwidth / 2) / (sample_rate / 2) ≤ 0 ∨
        1 ≤ (center_freq + bandwidth / 2) / (sample_rate / 2)
  · constructor
    · rw [design_scipy_bandpass_filter, if_pos hc]
      simp [hc]
    · intro hn
      exact absurd hc hn
  · push_neg at hc
    obtain ⟨hln, hhn1⟩ := hc
    have hlopos : 0 < center_freq - bandwidth / 2 := by
      rcases div_pos_iff.mp hln with ⟨h1, -⟩ | ⟨-, h2⟩
      · exact h1
      · linarith
    have hhn : 0 < (center_freq + bandwidth / 2) / (sample_rate / 2) :=
      div_pos (by linarith) hnyq
    have hln1 : (center_freq - bandwidth / 2) / (sample_rate / 2) < 1 :=
      (div_lt_one hnyq).mpr (by
        have := (div_lt_one hnyq).mp hhn1
        linarith)
    have hdeq : design_scipy_bandpass_filter order center_freq bandwidth sample_rate =
        butterBandSOS order ((center_freq - bandwidth / 2) / (sample_rate / 2))
          ((center_freq + bandwidth / 2) / (sample_rate / 2)) := by
      rw [design_scipy_bandpass_filter, if_neg (by push_neg; exact ⟨hln, hhn1⟩)]
    have hbutter : butterBandSOS order ((center_freq - bandwidth / 2) / (sample_rate / 2))
        ((center_freq + bandwidth / 2) / (sample_rate / 2)) =
        .ok ((List.range order).map fun _ =>
          butterSection ((center_freq - bandwidth / 2) / (sample_rate / 2))
            ((center_freq + bandwidth / 2) / (sample_rate / 2))) := by
      rw [butterBandSOS, if_pos ⟨hln, hln1, hhn, hhn1⟩]
    constructor
    · rw [hdeq, hbutter]
      constructor
      · intro h
        exact Except.noConfusion h
      · intro h
        exact absurd h (by push_neg; exact ⟨hln, hhn1⟩)
    · intro _
      refine ⟨hdeq, ?_⟩
      rw [hdeq, hbutter]
      rfl

/-- Witness for `c6_strict_mode_range_check` at the harness's concrete
order-4 spec. -/
theorem c6_witness :
    (design_scipy_bandpass_filter 4 1000 200 48000 = .error .invalidRange ↔
      ((1000:ℚ) - 200 / 2) / (48000 / 2) ≤ 0 ∨ 1 ≤ ((1000:ℚ) + 200 / 2) / (48000 / 2)) ∧
    (¬(((1000:ℚ) - 200 / 2) / (48000 / 2) ≤ 0 ∨
        1 ≤ ((1000:ℚ) + 200 / 2) / (48000 / 2)) →
      design_scipy_bandpass_filter 4 1000 200 48000 =
        butterBandSOS 4 (((1000:ℚ) - 200 / 2) / (48000 / 2))
          (((1000:ℚ) + 200 / 2) / (48000 / 2)) ∧
      (design_scipy_bandpass_filter 4 1000 200 48000).isOk = true) :=
  c6_strict_mode_range_check 4 1000 200 48000 (by norm_num) (by norm_num)

/-! Claim C10. -/

/-- Claim C10: the basic adapter's `design_filter` and the optimized adapter's
cached designer compute the same cascade for every sample rate — identical
clamping, order and band edges — and on a cold cache the cached designer
returns exactly the basic design paired with the one-entry cache. -/
theorem c10_designers_agree :
    (∀ sample_rate : ℚ, design_filter sample_rate = design_filter_compute sample_rate) ∧
    (∀ sample_rate : ℚ, design_filter_cached [] sample_rate =
      (design_filter sample_rate).map fun sos => (sos, [(sample_rate, sos)])) := by
  constructor
  · intro sample_rate
    rfl
  · intro sample_rate
    rfl

/-! Claim C4. -/

/-- Claim C4 as stated is false: with a config violating the Nyquist bound
(sample_rate = 1900 Hz) the design of order 2 fails, and the harness produces
no dataset at all — the error propagates instead of the run continuing with
the other requested order. -/
theorem c4_counterexample : ¬ C4Claim := by
  intro h
  have hisok := h cfgBad [2, 4] sigs0 2 (by decide) (by with_unfolding_all decide)
  have hfail : (generate_reference_data cfgBad [2, 4] sigs0).isOk = false := by
    with_unfolding_all decide
  rw [hfail] at hisok
  exact Bool.noConfusion hisok

/-- Claim C4, amended: if the first requested order cannot be designed, the
whole generation run fails with that design error — no partial dataset is
produced and the remaining orders are not attempted. -/
theorem c4_error_propagates (cfg : HarnessConfig) (o : ℕ) (rest : List ℕ)
    (signals : SignalBank) (e : ScipyError)
    (hdes : design_scipy_bandpass_filter o cfg.center_freq cfg.bandwidth cfg.sample_rate
      = .error e) :
    generate_reference_data cfg (o :: rest) signals = .error e := by
  rw [generate_reference_data, generateFilters, hdes]
  rfl

/-- Witness for `c4_error_propagates`: the concrete Nyquist-violating config. -/
theorem c4_witness : generate_reference_data cfgBad [2, 4] sigs0 = .error .invalidRange :=
  c4_error_propagates cfgBad 2 [4] sigs0 .invalidRange (by with_unfolding_all decide)

/-! Claim C5. -/

/-- Claim C5 as stated is false: a PhotoacousticResult block with the
one-sample signal [1] is passed through unchanged by `process_data` (there is
no PhotoacousticResult branch), while `apply_filter` on [1] fails at every
sample rate — so the returned signal field is not a filtered signal. -/
theorem c5_counterexample : ¬ C5Claim := by
  intro h
  obtain ⟨out, hout, sig, houtEq, sample_rate, happ⟩ := h [1] []
  subst houtEq
  have hpass : process_data (.photoacousticResult [1] []) =
      .ok (.photoacousticResult [1] []) := rfl
  rw [hpass] at hout
  injection hout with h1
  injection h1 with h2 h3
  rw [← h2] at happ
  have hbad := apply_filter_short_not_ok sample_rate [1] (by decide) (by decide)
  rw [happ] at hbad
  exact Bool.noConfusion hbad

/-- Claim C5, amended: the adapter has no PhotoacousticResult branch, so a
PhotoacousticResult block falls into the default arm and is returned entirely
unchanged — metadata unchanged as claimed, but the signal field is not
filtered either. -/
theorem c5_photoacoustic_passthrough (signal : List ℚ) (metadata : List (String × ℚ)) :
    process_data (.photoacousticResult signal metadata) =
      .ok (.photoacousticResult signal metadata) := rfl

/-! Claim C7. -/

/-- Claim C7: the zero-phase applicator returns the empty block unchanged;
given a designed cascade, it rejects every non-empty block of at most
`padlen sos` samples (the documented minimum is padlen + 1 = 3·(2·sections+1)
+ 1 samples) with the insufficient-samples error, and on every longer block
it succeeds with an output of the input's length. -/
theorem c7_zero_phase_applicator :
    (∀ sample_rate : ℚ, apply_filter [] sample_rate = .ok []) ∧
    (∀ (samples : List ℚ) (sample_rate : ℚ) (sos : SOSCascade),
      design_filter sample_rate = .ok sos →
      (samples ≠ [] → samples.length ≤ padlen sos →
        apply_filter samples sample_rate = .error .insufficientSamples) ∧
      (padlen sos < samples.length →
        ∃ out, apply_filter samples sample_rate = .ok out ∧
          out.length = samples.length)) := by
  constructor
  · intro sample_rate
    rfl
  · intro samples sample_rate sos hdes
    constructor
    · intro hne hlen
      rw [apply_filter, if_neg (by simpa using hne), hdes]
      show sosfiltfilt sos samples = .error .insufficientSamples
      rw [sosfiltfilt, if_pos hlen]
    · intro hgt
      refine ⟨zeroPhaseApply sos samples, ?_, zeroPhaseApply_length sos samples⟩
      have hne : ¬samples.length = 0 := by omega
      rw [apply_filter, if_neg hne, hdes]
      show sosfiltfilt sos samples = .ok (zeroPhaseApply sos samples)
      rw [sosfiltfilt, if_neg (by omega)]

/-- Witness for `c7_zero_phase_applicator` at 48000 Hz: the empty block
passes through, a 33-sample block is rejected, a 34-sample block succeeds
with full length. -/
theorem c7_witness :
    apply_filter [] 48000 = .ok [] ∧
    apply_filter (List.replicate 33 1) 48000 = .error .insufficientSamples ∧
    ∃ out, apply_filter (List.replicate 34 1) 48000 = .ok out ∧
      out.length = (List.replicate 34 (1:ℚ)).length := by
  have hdes : design_filter 48000 = .ok basicSos48 := by with_unfolding_all decide
  refine ⟨c7_zero_phase_applicator.1 48000, ?_, ?_⟩
  · exact (c7_zero_phase_applicator.2 (List.replicate 33 1) 48000 basicSos48 hdes).1
      (by decide) (by with_unfolding_all decide)
  · exact (c7_zero_phase_applicator.2 (List.replicate 34 1) 48000 basicSos48 hdes).2
      (by with_unfolding_all decide)

/-! Claim C8. -/

/-- Claim C8: whenever `process_data` returns a block, a SingleChannel input
yields a SingleChannel output and a DualChannel input a DualChannel output
with the same sample_rate, timestamp and frame_number and only the signal
fields replaced by their filtered versions; an AudioFrame input yields a
DualChannel-tagged output with those fields preserved; and a block of any
unrecognised shape is returned unchanged, same field values and same tag. -/
theorem c8_adapter_dispatch :
    (∀ samples sample_rate timestamp frame_number out,
      process_data (.singleChannel samples sample_rate timestamp frame_number) = .ok out →
      ∃ f, apply_filter samples sample_rate = .ok f ∧
        out = .singleChannel f sample_rate timestamp frame_number) ∧
    (∀ channel_a channel_b sample_rate timestamp frame_number out,
      process_data (.dualChannel channel_a channel_b sample_rate timestamp frame_number)
        = .ok out →
      ∃ fa fb, apply_filter channel_a sample_rate = .ok fa ∧
        apply_filter channel_b sample_rate = .ok fb ∧
        out = .dualChannel fa fb sample_rate timestamp frame_number) ∧
    (∀ channel_a channel_b sample_rate timestamp frame_number out,
      process_data (.audioFrame channel_a channel_b sample_rate timestamp frame_number)
        = .ok out →
      ∃ fa fb, apply_filter channel_a sample_rate = .ok fa ∧
        apply_filter channel_b sample_rate = .ok fb ∧
        out = .dualChannel fa fb sample_rate timestamp frame_number) ∧
    (∀ tag fields, process_data (.other tag fields) = .ok (.other tag fields)) := by
  refine ⟨?_, ?_, ?_, ?_⟩
  · intro samples sample_rate timestamp frame_number out h
    rw [process_data] at h
    cases ha : apply_filter samples sample_rate with
    | error e => rw [ha] at h; exact Except.noConfusion h
    | ok f =>
        rw [ha] at h
        injection h with h1
        exact ⟨f, rfl, h1.symm⟩
  · intro channel_a channel_b sample_rate timestamp frame_number out h
    rw [process_data] at h
    cases ha : apply_filter channel_a sample_rate with
    | error e => rw [ha] at h; exact Except.noConfusion h
    | ok fa =>
        rw [ha] at h
        cases hb : apply_filter channel_b sample_rate with
        | error e => rw [hb] at h; exact Except.noConfusion h
        | ok fb =>
            rw [hb] at h
            injection h with h1
            exact ⟨fa, fb, rfl, rfl, h1.symm⟩
  · intro channel_a channel_b sample_rate timestamp frame_number out h
    rw [process_data] at h
    cases ha : apply_filter channel_a sample_rate with
    | error e => rw [ha] at h; exact Except.noConfusion h
    | ok fa =>
        rw [ha] at h
        cases hb : apply_filter channel_b sample_rate with
        | error e => rw [hb] at h; exact Except.noConfusion h
        | ok fb =>
            rw [hb] at h
            injection h with h1
            exact ⟨fa, fb, rfl, rfl, h1.symm⟩
  · intro tag fields
    rfl

/-- Witness for `c8_adapter_dispatch`: a concrete 34-zero SingleChannel block
at 48000 Hz is processed into a SingleChannel block with the same rate,
timestamp and frame number. -/
theorem c8_witness :
    ∃ f, apply_filter zs34 48000 = .ok f ∧
      (ProcessingData.singleChannel zs34 48000 0 0 : ProcessingData)
        = .singleChannel f 48000 0 0 :=
  c8_adapter_dispatch.1 zs34 48000 0 0 (.singleChannel zs34 48000 0 0)
    (by
      have happ : apply_filter zs34 48000 = .ok zs34 := by with_unfolding_all decide
      rw [process_data, happ])

/-! Claim C3: symbolic evaluation of the harness cascade on the impulse. -/
/-- One step of the biquad recurrence for the harness section. -/
theorem biquadGo_h2sec_cons (z1 z2 x : ℚ) (l : List ℚ) :
    biquadGo h2sec z1 z2 (x :: l) =
      ((1/240) * x + z1) :: biquadGo h2sec z2 (-((1/240) * x)) l := by
  simp [biquadGo, h2sec]

/-- With zero state, the harness section maps zeros to zeros. -/
theorem biquadGo_h2sec_zeros (n : ℕ) :
    biquadGo h2sec 0 0 (List.replicate n 0) = List.replicate n 0 := by
  induction n with
  | zero => rfl
  | succ n ih =>
      simp only [List.replicate_succ]
      rw [biquadGo_h2sec_cons]
      norm_num [ih]

/-- Over a zero tail, the harness section drains its state in two steps. -/
theorem biquadGo_h2sec_drain (z1 z2 : ℚ) (n : ℕ) :
    biquadGo h2sec z1 z2 (List.replicate (n + 2) 0) = z1 :: z2 :: List.replicate n 0 := by
  have h2 : List.replicate (n + 2) (0:ℚ) = 0 :: 0 :: List.replicate n 0 := by
    simp [List.replicate_succ]
  rw [h2, biquadGo_h2sec_cons, biquadGo_h2sec_cons]
  norm_num [biquadGo_h2sec_zeros]

/-- With zero state, the harness section passes a zero prefix through. -/
theorem biquadGo_h2sec_zeros_append (n : ℕ) (l : List ℚ) :
    biquadGo h2sec 0 0 (List.replicate n 0 ++ l) =
      List.replicate n 0 ++ biquadGo h2sec 0 0 l := by
  induction n with
  | zero => simp
  | succ n ih =>
      simp only [List.replicate_succ, List.cons_append]
      rw [biquadGo_h2sec_cons]
      norm_num [ih]

/-- The causal (sosfilt) response of the harness order-2 cascade to the unit
impulse. -/
theorem sosfilt_h2_impulse (n : ℕ) :
    sosfilt harnessSos2 (1 :: List.replicate (n + 4) 0) =
      (1/57600) :: 0 :: -(1/28800) :: 0 :: (1/57600) :: List.replicate n 0 := by
  have inner : biquadGo h2sec 0 0 (1 :: List.replicate (n + 4) 0) =
      (1/240) :: 0 :: -(1/240) :: List.replicate (n + 2) 0 := by
    rw [biquadGo_h2sec_cons]
    rw [show List.replicate (n + 4) (0:ℚ) = List.replicate ((n + 2) + 2) 0 from by norm_num]
    rw [biquadGo_h2sec_drain]
    norm_num
  show biquadGo h2sec 0 0 (biquadGo h2sec 0 0 (1 :: List.replicate (n + 4) 0)) = _
  rw [inner, biquadGo_h2sec_cons, biquadGo_h2sec_cons, biquadGo_h2sec_cons]
  rw [biquadGo_h2sec_drain]
  norm_num

/-- First backward pass over the time-reversed causal impulse response. -/
theorem biquad_h2_small1 :
    biquadGo h2sec 0 0 [(1/57600 : ℚ), 0, -(1/28800), 0, (1/57600)] =
      [(1/13824000 : ℚ), 0, -(3/13824000), 0, (3/13824000)] := by
  rw [biquadGo_h2sec_cons, biquadGo_h2sec_cons, biquadGo_h2sec_cons, biquadGo_h2sec_cons,
    biquadGo_h2sec_cons]
  norm_num [biquadGo]

/-- Second backward pass. -/
theorem biquad_h2_small2 :
    biquadGo h2sec 0 0 [(1/13824000 : ℚ), 0, -(3/13824000), 0, (3/13824000)] =
      [(1/3317760000 : ℚ), 0, -(4/3317760000), 0, (6/3317760000)] := by
  rw [biquadGo_h2sec_cons, biquadGo_h2sec_cons, biquadGo_h2sec_cons, biquadGo_h2sec_cons,
    biquadGo_h2sec_cons]
  norm_num [biquadGo]

/-- The zero-phase (forward-backward) response of the harness order-2 cascade
to the unit impulse; its lag-0 value 6/240^4 differs from the causal lag-0
value 1/240^2. -/
theorem zeroPhase_h2_impulse (n : ℕ) :
    zeroPhaseApply harnessSos2 (1 :: List.replicate (n + 4) 0) =
      (6/3317760000) :: 0 :: -(4/3317760000) :: 0 :: (1/3317760000) :: List.replicate n 0 := by
  rw [zeroPhaseApply, sosfilt_h2_impulse]
  have hrev1 : ((1/57600 : ℚ) :: 0 :: -(1/28800) :: 0 :: (1/57600) :: List.replicate n 0).reverse
      = List.replicate n 0 ++ [(1/57600 : ℚ), 0, -(1/28800), 0, (1/57600)] := by
    simp [List.reverse_replicate]
  rw [hrev1]
  rw [show ∀ y : List ℚ, sosfilt harnessSos2 y = biquadGo h2sec 0 0 (biquadGo h2sec 0 0 y)
    from fun y => rfl]
  rw [biquadGo_h2sec_zeros_append, biquad_h2_small1, biquadGo_h2sec_zeros_append,
    biquad_h2_small2]
  rw [List.reverse_append, List.reverse_replicate]
  norm_num

/-- Concrete run of the harness on the impulse battery for order 2. -/
theorem generate_2_eval : generate_reference_data harnessConfig [2] sigs0 = .ok refDataC := by
  have hdes : design_scipy_bandpass_filter 2 harnessConfig.center_freq harnessConfig.bandwidth
      harnessConfig.sample_rate = .ok harnessSos2 := by with_unfolding_all decide
  rw [generate_reference_data, generateFilters, hdes, generateFilters]
  rfl

/-- Every entry a successful `generateFilters` run stores holds exactly the
causally processed battery for its stored cascade. -/
theorem generateFilters_mem (cfg : HarnessConfig) (signals : SignalBank) :
    ∀ (orders : List ℕ) (fs : List (String × FilterEntry)),
      generateFilters cfg signals orders = .ok fs →
      ∀ key e, (key, e) ∈ fs →
        e.processed_signals = process_signals_with_filter signals e.sos_coefficients := by
  intro orders
  induction orders with
  | nil =>
      intro fs h key e hm
      rw [generateFilters] at h
      injection h with h1
      rw [← h1] at hm
      exact absurd hm (List.not_mem_nil _)
  | cons o rest ih =>
      intro fs h key e hm
      rw [generateFilters] at h
      cases hdes : design_scipy_bandpass_filter o cfg.center_freq cfg.bandwidth
          cfg.sample_rate with
      | error e0 => rw [hdes] at h; exact Except.noConfusion h
      | ok sos =>
          rw [hdes] at h
          cases htail : generateFilters cfg signals rest with
          | error e0 => rw [htail] at h; exact Except.noConfusion h
          | ok tail =>
              rw [htail] at h
              injection h with h1
              rw [← h1] at hm
              rcases List.mem_cons.mp hm with hhead | htl
              · have he : e = ⟨sos, process_signals_with_filter signals sos⟩ :=
                  congrArg Prod.snd hhead
                rw [he]
              · exact ih tail htail key e htl

/-- Claim C3 as stated is false: on the impulse member of the battery, the
dataset stores the causal `sosfilt` output, which differs from the zero-phase
output already at lag 0 (1/240^2 versus 6/240^4). -/
theorem c3_counterexample : ¬ C3Claim := by
  intro h
  have hmem := h harnessConfig [2] sigs0 refDataC generate_2_eval (orderKey 2) entryC
    (List.mem_singleton.mpr rfl) impulseName impulseSignal (List.mem_singleton.mpr rfl)
  have hproc : entryC.processed_signals = [(impulseName, sosfilt harnessSos2 impulseSignal)] :=
    rfl
  rw [hproc, List.mem_singleton] at hmem
  have heq : zeroPhaseApply harnessSos2 impulseSignal = sosfilt harnessSos2 impulseSignal :=
    congrArg Prod.snd hmem
  rw [show impulseSignal = 1 :: List.replicate (1019 + 4) 0 from rfl] at heq
  rw [zeroPhase_h2_impulse, sosfilt_h2_impulse] at heq
  have hhead := congrArg List.head? heq
  norm_num at hhead

/-- Claim C3, amended: for each order the dataset stores the single-pass
causal (`sosfilt`) application of that order's strict-mode cascade to every
test signal — not the zero-phase application. -/
theorem c3_processed_is_causal (cfg : HarnessConfig) (orders : List ℕ) (signals : SignalBank)
    (d : ReferenceData) (hgen : generate_reference_data cfg orders signals = .ok d)
    (key : String) (e : FilterEntry) (hmem : (key, e) ∈ d.filters) :
    e.processed_signals = process_signals_with_filter signals e.sos_coefficients ∧
    e.processed_signals = signals.map fun p => (p.1, sosfilt e.sos_coefficients p.2) := by
  rw [generate_reference_data] at hgen
  cases hgf : generateFilters cfg signals orders with
  | error e0 => rw [hgf] at hgen; exact Except.noConfusion hgen
  | ok fs =>
      rw [hgf] at hgen
      injection hgen with h1
      rw [← h1] at hmem
      have := generateFilters_mem cfg signals orders fs hgf key e hmem
      exact ⟨this, this⟩

/-- Witness for `c3_processed_is_causal`: the concrete order-2 run on the
impulse battery. -/
theorem c3_witness :
    entryC.processed_signals = process_signals_with_filter sigs0 entryC.sos_coefficients ∧
    entryC.processed_signals = sigs0.map fun p => (p.1, sosfilt entryC.sos_coefficients p.2) :=
  c3_processed_is_causal harnessConfig [2] sigs0 refDataC generate_2_eval (orderKey 2) entryC
    (List.mem_singleton.mpr rfl)

/-! Claim C9. -/

/-- Claim C9: in every cache state reachable through the module's operations,
each stored entry equals the clamped-mode design for its sample-rate key; a
call that finds a stored cascade returns it with the cache unchanged (no
redesign); a successful call leaves the designed cascade stored under its
rate; and `shutdown` empties the cache. -/
theorem c9_cache_contract :
    (∀ c, CacheReachable c → ∀ sample_rate sos, cacheLookup c sample_rate = some sos →
      design_filter_compute sample_rate = .ok sos) ∧
    (∀ c sample_rate sos, cacheLookup c sample_rate = some sos →
      design_filter_cached c sample_rate = .ok (sos, c)) ∧
    (∀ c sample_rate sos c', design_filter_cached c sample_rate = .ok (sos, c') →
      cacheLookup c' sample_rate = some sos) ∧
    (∀ c, shutdown c = ([] : FilterCache)) := by
  have hhit : ∀ (c : FilterCache) (sample_rate : ℚ) (sos : SOSCascade),
      cacheLookup c sample_rate = some sos →
      design_filter_cached c sample_rate = .ok (sos, c) := by
    intro c sample_rate sos h
    rw [design_filter_cached, h]
  refine ⟨?_, hhit, ?_, fun c => rfl⟩
  · intro c hreach
    induction hreach with
    | empty =>
        intro sample_rate sos h
        exact Option.noConfusion h
    | design c0 sr0 sos0 c0' hr hstep ih =>
        intro sample_rate sos h
        rw [design_filter_cached] at hstep
        cases hcl : cacheLookup c0 sr0 with
        | some s0 =>
            rw [hcl] at hstep
            injection hstep with h1
            have hc0 : c0' = c0 := (congrArg Prod.snd h1).symm
            rw [hc0] at h
            exact ih sample_rate sos h
        | none =>
            rw [hcl] at hstep
            cases hdc : design_filter_compute sr0 with
            | error e0 => rw [hdc] at hstep; exact Except.noConfusion hstep
            | ok d =>
                rw [hdc] at hstep
                injection hstep with h1
                have hc0 : c0' = (sr0, d) :: c0 := (congrArg Prod.snd h1).symm
                have hd0 : sos0 = d := (congrArg Prod.fst h1).symm
                rw [hc0] at h
                rw [cacheLookup] at h
                by_cases hsr : sample_rate = sr0
                · rw [if_pos hsr] at h
                  injection h with h2
                  rw [hsr, hdc, h2]
                · rw [if_neg hsr] at h
                  exact ih sample_rate sos h
    | clear c0 hr ih =>
        intro sample_rate sos h
        exact Option.noConfusion h
  · intro c sample_rate sos c' h
    rw [design_filter_cached] at h
    cases hcl : cacheLookup c sample_rate with
    | some s0 =>
        rw [hcl] at h
        injection h with h1
        have hc : c' = c := (congrArg Prod.snd h1).symm
        have hs : sos = s0 := (congrArg Prod.fst h1).symm
        rw [hc, hs]
        exact hcl
    | none =>
        rw [hcl] at h
        cases hdc : design_filter_compute sample_rate with
        | error e0 => rw [hdc] at h; exact Except.noConfusion h
        | ok d =>
            rw [hdc] at h
            injection h with h1
            have hc : c' = (sample_rate, d) :: c := (congrArg Prod.snd h1).symm
            have hd : sos = d := (congrArg Prod.fst h1).symm
            rw [hc, cacheLookup, if_pos rfl, hd]

/-- Witness for `c9_cache_contract`: one concrete design step at 48000 Hz,
a cache hit on the stored entry, and a shutdown. -/
theorem c9_witness :
    design_filter_compute 48000 = .ok basicSos48 ∧
    design_filter_cached [(48000, basicSos48)] 48000 = .ok (basicSos48, [(48000, basicSos48)]) ∧
    cacheLookup [(48000, basicSos48)] 48000 = some basicSos48 ∧
    shutdown [(48000, basicSos48)] = ([] : FilterCache) := by
  have hcompute : design_filter_compute 48000 = .ok basicSos48 := by
    with_unfolding_all decide
  have hl : cacheLookup [(48000, basicSos48)] 48000 = some basicSos48 := by
    simp [cacheLookup]
  have hstep : design_filter_cached [] 48000 = .ok (basicSos48, [(48000, basicSos48)]) := by
    rw [design_filter_cached]
    show (design_filter_compute 48000).map _ = _
    rw [hcompute]
    rfl
  have hreach : CacheReachable [(48000, basicSos48)] :=
    CacheReachable.design [] 48000 basicSos48 _ CacheReachable.empty hstep
  exact ⟨c9_cache_contract.1 _ hreach 48000 basicSos48 hl,
    c9_cache_contract.2.1 _ _ _ hl,
    c9_cache_contract.2.2.1 _ _ _ _ (c9_cache_contract.2.1 _ _ _ hl),
    c9_cache_contract.2.2.2 _⟩
